import Mathlib

/-!
Verification of the CoLab collaboration-platform backend.

The Python sources are shallowly embedded:
* `matching.py` — pure scoring functions over user records (`compute_complementary_match`,
  `find_best_matches`, `calculate_interest_match`), modelled over `ℚ` (Python floats are
  treated as exact rationals; `round(x, n)` is modelled by `round4`/`round3` below).
* `app.py` — the HTTP handlers that the claims mention are modelled as explicit
  state-transition functions on `AppState` (the relational store), returning the
  post-handler state together with `Except HTTPError r`.  SQLAlchemy's `.first()` is
  `List.find?` in insertion order, `.count()` is `List.countP`; timestamps are not
  modelled (no claim mentions them).

A nullable text column that Python tests for truthiness (`if user.availability`) is
modelled as a `String` where `""` stands for both SQL NULL and the empty string —
exactly the two falsy cases.
-/

namespace CoLab

/-- Python `str.lower()` (ASCII case folding, character by character).  Implemented on
the underlying character list so the kernel can evaluate it; `String.toLower` is the
same character map but its loop is not kernel-reducible. -/
def pyLower (s : String) : String := ⟨s.data.map Char.toLower⟩

/-- Python `s.replace("#", "")` — removes every hash character. -/
def removeHashes (s : String) : String := ⟨s.data.filter (· ≠ '#')⟩

/-- Python `round(x, 4)` over exact rationals, i.e. rounding `x` to the nearest multiple
of `1/10000` (ties upward; Python's float `round` breaks exact ties to even, which no
claim exercises). -/
def round4 (q : ℚ) : ℚ := ((Rat.floor (q * 10000 + 1/2) : ℤ) : ℚ) / 10000

/-- Python `round(x, 3)` over exact rationals. -/
def round3 (q : ℚ) : ℚ := ((Rat.floor (q * 1000 + 1/2) : ℤ) : ℚ) / 1000

theorem ratFloor_eq_floor (q : ℚ) : Rat.floor q = ⌊q⌋ := rfl

theorem round4_eq_round (q : ℚ) : round4 q = ((round (q * 10000) : ℤ) : ℚ) / 10000 := by
  rw [round4, ratFloor_eq_floor, round_eq]

theorem round4_nonneg {q : ℚ} (h : 0 ≤ q) : 0 ≤ round4 q := by
  rw [round4, ratFloor_eq_floor]
  apply div_nonneg _ (by norm_num)
  have h0 : (0:ℤ) ≤ ⌊q * 10000 + 1/2⌋ := Int.le_floor.mpr (by push_cast; linarith)
  exact_mod_cast h0

theorem round4_le_one {q : ℚ} (h : q ≤ 1) : round4 q ≤ 1 := by
  rw [round4, ratFloor_eq_floor, div_le_one (by norm_num)]
  have h1 : ⌊q * 10000 + 1/2⌋ ≤ 10000 := by
    apply Int.lt_add_one_iff.mp
    apply Int.floor_lt.mpr
    push_cast
    linarith
  exact_mod_cast h1

/-- The fields of `database.User` that `matching.py` reads: `id`, `is_active`,
the related skill names (`s.name for s in u.skills`), `availability`, `timezone`.
`""` models a NULL / empty (falsy) text column. -/
structure User where
  id : Nat
  is_active : Bool
  skills : List String
  availability : String
  timezone : String
  deriving Repr, DecidableEq

/-- `{s.lower() for s in l}` — a Python set of lower-cased strings. -/
def lowerSet (l : List String) : Finset String := (l.map pyLower).toFinset

/-- `matching.py` lines 24–28: the needs set — `required_skills` lower-cased if truthy
(present *and* non-empty), else the requester's own lower-cased skill set. -/
def needsSet (requester : User) (required_skills : Option (List String)) : Finset String :=
  match required_skills with
  | some l => if l.isEmpty then lowerSet requester.skills else lowerSet l
  | none => lowerSet requester.skills

/-- `matching.py` line 38: `len(covered_needs) / max(1, len(needs_set))`. -/
def coverage_score (requester candidate : User) (required_skills : Option (List String)) : ℚ :=
  (((needsSet requester required_skills) ∩ lowerSet candidate.skills).card : ℚ) /
    ((max 1 (needsSet requester required_skills).card : ℕ) : ℚ)

/-- `matching.py` line 41: `min(1.0, len(complementary_skills) / 10.0)`. -/
def complement_score (requester candidate : User) : ℚ :=
  min 1 (((lowerSet candidate.skills \ lowerSet requester.skills).card : ℚ) / 10)

/-- `matching.py` line 44: `min(0.3, len(shared_skills) / 5.0)`. -/
def shared_bonus (requester candidate : User) : ℚ :=
  min 0.3 (((lowerSet requester.skills ∩ lowerSet candidate.skills).card : ℚ) / 5)

/-- `matching.py` lines 46–54: the availability component.  The three ordered cases are
only reached when both availability labels are truthy (non-NULL and non-empty). -/
def availability_score (requester candidate : User) : ℚ :=
  if requester.availability ≠ "" ∧ candidate.availability ≠ "" then
    if pyLower candidate.availability = "any" ∨ pyLower requester.availability = "any" then 0.2
    else if requester.timezone ≠ "" ∧ candidate.timezone ≠ "" ∧
        requester.timezone = candidate.timezone then 0.15
    else if pyLower requester.availability = pyLower candidate.availability then 0.1
    else 0
  else 0

/-- The `match_details` dict built at `matching.py` lines 64–75. -/
structure MatchDetails where
  coverage_score : ℚ
  complement_score : ℚ
  shared_bonus : ℚ
  availability_score : ℚ
  complementary_skills : List String
  shared_skills : List String
  covered_needs : List String
  missing_skills : List String
  total_skills_candidate : Nat
  total_skills_requester : Nat
  deriving Repr, DecidableEq

/-- `matching.py` lines 10–77, `compute_complementary_match`: returns
`(round(final_score, 4), match_details)` where
`final_score = 0.5*coverage + 0.3*complement + 0.15*shared_bonus + 0.05*availability`. -/
def compute_complementary_match (requester candidate : User)
    (required_skills : Option (List String) := none) : ℚ × MatchDetails :=
  let requester_skills := lowerSet requester.skills
  let candidate_skills := lowerSet candidate.skills
  let needs_set := needsSet requester required_skills
  let final_score : ℚ :=
    0.5 * coverage_score requester candidate required_skills +
    0.3 * complement_score requester candidate +
    0.15 * shared_bonus requester candidate +
    0.05 * availability_score requester candidate
  (round4 final_score,
   { coverage_score := round3 (coverage_score requester candidate required_skills)
     complement_score := round3 (complement_score requester candidate)
     shared_bonus := round3 (shared_bonus requester candidate)
     availability_score := round3 (availability_score requester candidate)
     complementary_skills := (candidate_skills \ requester_skills).sort (· ≤ ·)
     shared_skills := (requester_skills ∩ candidate_skills).sort (· ≤ ·)
     covered_needs := (needs_set ∩ candidate_skills).sort (· ≤ ·)
     missing_skills := (needs_set \ candidate_skills).sort (· ≤ ·)
     total_skills_candidate := candidate_skills.card
     total_skills_requester := requester_skills.card })

theorem coverage_score_nonneg (r c : User) (rs : Option (List String)) :
    0 ≤ coverage_score r c rs := by
  rw [coverage_score]; positivity

theorem coverage_score_le_one (r c : User) (rs : Option (List String)) :
    coverage_score r c rs ≤ 1 := by
  rw [coverage_score, div_le_one (by positivity)]
  have h : ((needsSet r rs) ∩ lowerSet c.skills).card ≤ max 1 (needsSet r rs).card :=
    le_trans (Finset.card_le_card Finset.inter_subset_left) (le_max_right 1 _)
  exact_mod_cast h

theorem complement_score_nonneg (r c : User) : 0 ≤ complement_score r c := by
  rw [complement_score]; positivity

theorem complement_score_le_one (r c : User) : complement_score r c ≤ 1 :=
  min_le_left _ _

theorem shared_bonus_nonneg (r c : User) : 0 ≤ shared_bonus r c := by
  rw [shared_bonus]
  exact le_min (by norm_num) (by positivity)

theorem shared_bonus_le (r c : User) : shared_bonus r c ≤ 0.3 :=
  min_le_left _ _

theorem availability_score_nonneg (r c : User) : 0 ≤ availability_score r c := by
  rw [availability_score]
  split_ifs <;> norm_num

theorem availability_score_le (r c : User) : availability_score r c ≤ 0.2 := by
  rw [availability_score]
  split_ifs <;> norm_num

/-- C1: for every requester/candidate pair (any skill sets, any availability/timezone
labels) and any optional required-skill list, `compute_complementary_match` returns
`0.5*coverage_score + 0.3*complement_score + 0.15*shared_bonus + 0.05*availability_score`
rounded to 4 decimal places, and this score lies in the closed interval `[0, 1]`. -/
theorem compute_complementary_match_score (requester candidate : User)
    (required_skills : Option (List String)) :
    (compute_complementary_match requester candidate required_skills).1 =
      round4 (0.5 * coverage_score requester candidate required_skills +
        0.3 * complement_score requester candidate +
        0.15 * shared_bonus requester candidate +
        0.05 * availability_score requester candidate) ∧
    0 ≤ (compute_complementary_match requester candidate required_skills).1 ∧
    (compute_complementary_match requester candidate required_skills).1 ≤ 1 := by
  have h1 := coverage_score_nonneg requester candidate required_skills
  have h2 := coverage_score_le_one requester candidate required_skills
  have h3 := complement_score_nonneg requester candidate
  have h4 := complement_score_le_one requester candidate
  have h5 := shared_bonus_nonneg requester candidate
  have h6 := shared_bonus_le requester candidate
  have h7 := availability_score_nonneg requester candidate
  have h8 := availability_score_le requester candidate
  refine ⟨rfl, round4_nonneg (by norm_num at h6 h8 ⊢; linarith),
    round4_le_one (by norm_num at h6 h8 ⊢; linarith)⟩

/-- C9: the coverage computation is total — its denominator `max(1, |needs|)` is
positive for every input, the score always lies in `[0, 1]`, and in particular when
`required_skills` is explicitly the empty list and the requester has no skills the
needs set is empty and `coverage_score = 0`. -/
theorem coverage_score_total (requester candidate : User) (rs : Option (List String)) :
    (0:ℚ) < ((max 1 (needsSet requester rs).card : ℕ) : ℚ) ∧
    0 ≤ coverage_score requester candidate rs ∧
    coverage_score requester candidate rs ≤ 1 ∧
    (requester.skills = [] →
      needsSet requester (some []) = ∅ ∧
      coverage_score requester candidate (some []) = 0) := by
  refine ⟨by positivity, coverage_score_nonneg _ _ _, coverage_score_le_one _ _ _, ?_⟩
  intro h
  have hneeds : needsSet requester (some []) = ∅ := by
    simp [needsSet, lowerSet, h]
  refine ⟨hneeds, ?_⟩
  rw [coverage_score, hneeds]
  simp

/-- Witness for C9 at a concrete skill-less requester. -/
theorem coverage_score_total_witness :
    needsSet ⟨1, true, [], "", ""⟩ (some []) = ∅ ∧
    coverage_score ⟨1, true, [], "", ""⟩ ⟨2, true, ["react"], "", ""⟩ (some []) = 0 :=
  (coverage_score_total ⟨1, true, [], "", ""⟩ ⟨2, true, ["react"], "", ""⟩ (some [])).2.2.2 rfl

/-- A user with no availability label but a timezone (counterexample input for C2). -/
def tzOnlyRequester : User :=
  { id := 1
    is_active := true
    skills := []
    availability := ""
    timezone := "UTC" }

/-- Second user with no availability label and the same timezone. -/
def tzOnlyCandidate : User :=
  { id := 2
    is_active := true
    skills := []
    availability := ""
    timezone := "UTC" }

/-- C2 counterexample: both parties have the non-empty, equal timezone `"UTC"`, yet the
availability component is `0`, not the `0.15` the claim promises "regardless of whether
the availability labels are present" — the code's `if requester.availability and
candidate.availability` guard skips the whole ladder when a label is absent. -/
theorem availability_score_absent_labels :
    tzOnlyRequester.timezone = "UTC" ∧ tzOnlyCandidate.timezone = "UTC" ∧
    tzOnlyRequester.availability = "" ∧ tzOnlyCandidate.availability = "" ∧
    availability_score tzOnlyRequester tzOnlyCandidate = 0 ∧
    ¬ (0.15 ≤ availability_score tzOnlyRequester tzOnlyCandidate) := by
  refine ⟨rfl, rfl, rfl, rfl, ?_, ?_⟩ <;> rw [availability_score] <;> norm_num [tzOnlyRequester, tzOnlyCandidate]

/-- The spec's §4.3.1 step 5 ladder, written from the spec's words (no truthiness
guard): 0.2 on "any", else 0.15 on equal non-empty timezones, else 0.1 on equal
labels, else 0. -/
def spec_availability_ladder (requester candidate : User) : ℚ :=
  if pyLower candidate.availability = "any" ∨ pyLower requester.availability = "any" then 0.2
  else if requester.timezone ≠ "" ∧ candidate.timezone ≠ "" ∧
      requester.timezone = candidate.timezone then 0.15
  else if pyLower requester.availability = pyLower candidate.availability then 0.1
  else 0

/-- C2 amended: the availability component follows the spec's exclusive ordered ladder
only when both parties' availability labels are present (non-empty); when either label
is absent the component is `0.0`, even if both timezones are non-empty and equal. -/
theorem availability_score_guarded (requester candidate : User) :
    (requester.availability = "" ∨ candidate.availability = "" →
      availability_score requester candidate = 0) ∧
    (requester.availability ≠ "" → candidate.availability ≠ "" →
      availability_score requester candidate = spec_availability_ladder requester candidate) := by
  constructor
  · intro h
    rw [availability_score, if_neg]
    tauto
  · intro h1 h2
    rw [availability_score, spec_availability_ladder, if_pos ⟨h1, h2⟩]

/-- Witness for C2's amended theorem at concrete users. -/
theorem availability_score_guarded_witness :
    availability_score tzOnlyRequester tzOnlyCandidate = 0 ∧
    availability_score ⟨3, true, [], "weekends", "UTC"⟩ ⟨4, true, [], "Evenings", "UTC"⟩ =
      spec_availability_ladder ⟨3, true, [], "weekends", "UTC"⟩ ⟨4, true, [], "Evenings", "UTC"⟩ :=
  ⟨(availability_score_guarded tzOnlyRequester tzOnlyCandidate).1 (Or.inl rfl),
   (availability_score_guarded _ _).2 (by decide) (by decide)⟩

/-- The normalized tag set of `matching.py` lines 122–123:
`{i.lower().replace('#', '') for i in l if i}` — entries that are empty strings are
dropped (Python's `if i` truthiness filter), the rest are lower-cased and stripped of
hash characters. -/
def normalizedTags (l : List String) : Finset String :=
  ((l.filter (· ≠ "")).map (fun i => removeHashes (pyLower i))).toFinset

/-- `matching.py` lines 108–136, `calculate_interest_match`.  Emptiness tests
(`if not user1_interests`, `if not interests1`, `if union == 0`) are written as
`isEmpty` / `card = 0` checks. -/
def calculate_interest_match (user1_interests user2_interests : List String) : ℚ :=
  if user1_interests.isEmpty ∨ user2_interests.isEmpty then 0
  else
    let interests1 := normalizedTags user1_interests
    let interests2 := normalizedTags user2_interests
    if interests1.card = 0 ∨ interests2.card = 0 then 0
    else
      let intersection := (interests1 ∩ interests2).card
      let union := (interests1 ∪ interests2).card
      if union = 0 then 0
      else round4 ((intersection : ℚ) / (union : ℚ))

/-- The normalization exactly as the claim words it — lower-case and remove hash marks,
with no dropping of empty entries (a refinement definition following the spec's words,
for comparison with `normalizedTags`). -/
def claimNormalizedTags (l : List String) : Finset String :=
  (l.map (fun i => removeHashes (pyLower i))).toFinset

/-- The interest similarity exactly as the claim words it: `0.0` whenever either
claim-normalized set is empty, else the Jaccard similarity rounded to 4 decimals. -/
def claim_interest_match (u1 u2 : List String) : ℚ :=
  if (claimNormalizedTags u1).card = 0 ∨ (claimNormalizedTags u2).card = 0 then 0
  else round4 (((claimNormalizedTags u1 ∩ claimNormalizedTags u2).card : ℚ) /
    ((claimNormalizedTags u1 ∪ claimNormalizedTags u2).card : ℚ))

unseal Rat.mul Rat.inv Rat.add Rat.sub Rat.ofScientific in
/-- C6 counterexample: on the input `[""] , [""]` the code returns `0.0` (the
empty-string entry is dropped by the `if i` filter before normalization, leaving an
empty set), while the claim's normalization keeps `""` as a set element, making both
normalized sets non-empty with Jaccard similarity `1`. -/
theorem calculate_interest_match_empty_entry :
    calculate_interest_match [""] [""] = 0 ∧
    claimNormalizedTags [""] ≠ ∅ ∧
    claim_interest_match [""] [""] = 1 := by
  refine ⟨by decide, ?_, by decide⟩
  intro h
  have : ("" : String) ∈ claimNormalizedTags [""] := by decide
  rw [h] at this
  exact absurd this (Finset.not_mem_empty _)

theorem normalizedTags_nil : normalizedTags [] = ∅ := rfl

theorem normalizedTags_eq_empty_of_isEmpty {l : List String} (h : l.isEmpty) :
    normalizedTags l = ∅ := by
  rw [List.isEmpty_iff.mp h]
  rfl

unseal Rat.mul Rat.inv Rat.add Rat.sub Rat.ofScientific in
/-- C6 amended: `calculate_interest_match` first drops empty-string entries, then
normalizes the rest by lower-casing and removing hash marks; it returns `0.0` whenever
either resulting set is empty and otherwise the Jaccard similarity `|∩| / |∪|` rounded
to 4 decimal places.  In particular the claim's two examples hold:
`["#ai","#music"]` against `["#AI","#sports"]` scores `0.3333`, and an empty list
against any list scores `0.0`. -/
theorem calculate_interest_match_spec (u1 u2 : List String) :
    calculate_interest_match u1 u2 =
      (if normalizedTags u1 = ∅ ∨ normalizedTags u2 = ∅ then 0
       else round4 (((normalizedTags u1 ∩ normalizedTags u2).card : ℚ) /
         ((normalizedTags u1 ∪ normalizedTags u2).card : ℚ))) ∧
    calculate_interest_match ["#ai", "#music"] ["#AI", "#sports"] = 0.3333 ∧
    ∀ l, calculate_interest_match [] l = 0 := by
  refine ⟨?_, by decide, fun l => rfl⟩
  simp only [calculate_interest_match, ← Finset.card_eq_zero]
  split_ifs with h1 h2 h3 h4 <;> try rfl
  · exact absurd (h1.imp
      (fun h => Finset.card_eq_zero.mpr (normalizedTags_eq_empty_of_isEmpty h))
      (fun h => Finset.card_eq_zero.mpr (normalizedTags_eq_empty_of_isEmpty h))) h2
  · exact absurd (Or.inl (Finset.card_eq_zero.mpr
      (Finset.union_eq_empty.mp (Finset.card_eq_zero.mp h4)).1)) h3

/-- `matching.py` lines 93–100: the scored candidate list — the loop skips the
requester itself and inactive users and scores every remaining candidate. -/
def scored_matches (requester : User) (all_users : List User)
    (required_skills : Option (List String)) : List (User × ℚ × MatchDetails) :=
  (all_users.filter (fun c => !(c.id == requester.id) && c.is_active)).map
    (fun c => (c, compute_complementary_match requester c required_skills))

/-- `matching.py` line 103: `matches.sort(key=lambda x: x[1], reverse=True)` —
Python's stable sort in descending score order, modelled by a stable merge sort whose
comparison puts `a` before `b` iff `b`'s score is at most `a`'s. -/
def sorted_matches (requester : User) (all_users : List User)
    (required_skills : Option (List String)) : List (User × ℚ × MatchDetails) :=
  (scored_matches requester all_users required_skills).mergeSort
    (fun a b => decide (b.2.1 ≤ a.2.1))

/-- `matching.py` lines 80–105, `find_best_matches`: sort the scored candidates by
descending score and return the first `top_k`. -/
def find_best_matches (requester : User) (all_users : List User)
    (required_skills : Option (List String) := none) (top_k : Nat := 10) :
    List (User × ℚ × MatchDetails) :=
  (sorted_matches requester all_users required_skills).take top_k

/-- C5: `find_best_matches` never includes the requester itself nor any inactive
candidate, returns at most `top_k` entries, returns them sorted by descending match
score, and keeps tied candidates in the candidate pool's input order (stability:
any two tied entries appearing in scored input order also appear in that order in
the sorted list, of which the result is the `top_k`-prefix). -/
theorem find_best_matches_spec (requester : User) (all_users : List User)
    (required_skills : Option (List String)) (top_k : Nat) :
    (∀ e ∈ find_best_matches requester all_users required_skills top_k,
      e.1.id ≠ requester.id ∧ e.1.is_active = true) ∧
    (find_best_matches requester all_users required_skills top_k).length ≤ top_k ∧
    (find_best_matches requester all_users required_skills top_k).Pairwise
      (fun a b => b.2.1 ≤ a.2.1) ∧
    (∀ a b : User × ℚ × MatchDetails, a.2.1 = b.2.1 →
      List.Sublist [a, b] (scored_matches requester all_users required_skills) →
      List.Sublist [a, b] (sorted_matches requester all_users required_skills)) ∧
    find_best_matches requester all_users required_skills top_k =
      (sorted_matches requester all_users required_skills).take top_k := by
  have trans : ∀ (a b c : User × ℚ × MatchDetails),
      decide (b.2.1 ≤ a.2.1) → decide (c.2.1 ≤ b.2.1) → decide (c.2.1 ≤ a.2.1) := by
    intro a b c h1 h2
    simp only [decide_eq_true_eq] at h1 h2 ⊢
    exact le_trans h2 h1
  have total : ∀ (a b : User × ℚ × MatchDetails),
      decide (b.2.1 ≤ a.2.1) || decide (a.2.1 ≤ b.2.1) := by
    intro a b
    simp only [Bool.or_eq_true, decide_eq_true_eq]
    exact le_total _ _
  refine ⟨?_, ?_, ?_, ?_, rfl⟩
  · intro e he
    have h1 : e ∈ sorted_matches requester all_users required_skills :=
      List.mem_of_mem_take he
    rw [sorted_matches, List.mem_mergeSort, scored_matches] at h1
    obtain ⟨c, hc, rfl⟩ := List.mem_map.mp h1
    have hc2 := (List.mem_filter.mp hc).2
    simp only [Bool.and_eq_true, Bool.not_eq_eq_eq_not, Bool.not_true, beq_eq_false_iff_ne,
      ne_eq] at hc2
    exact ⟨hc2.1, hc2.2⟩
  · rw [find_best_matches, List.length_take]
    exact min_le_left _ _
  · have hp := List.sorted_mergeSort trans total
      (scored_matches requester all_users required_skills)
    have hp2 : (sorted_matches requester all_users required_skills).Pairwise
        (fun a b => b.2.1 ≤ a.2.1) :=
      hp.imp (fun h => by simpa using h)
    exact hp2.sublist (List.take_sublist _ _)
  · intro a b hab hsub
    exact List.pair_sublist_mergeSort trans total (by simp [hab]) hsub

/-- Requester used in the C5 witness. -/
def reqW : User := ⟨0, true, ["python"], "", ""⟩

/-- First tied candidate in the C5 witness. -/
def candA : User := ⟨1, true, ["react"], "", ""⟩

/-- Second tied candidate in the C5 witness. -/
def candB : User := ⟨2, true, ["vue"], "", ""⟩

/-- An inactive candidate, excluded from matching. -/
def candInactive : User := ⟨3, false, ["go"], "", ""⟩

unseal Rat.mul Rat.inv Rat.add Rat.sub Rat.ofScientific in
/-- Witness for C5 at a concrete pool with a score tie (`candA`/`candB` both score
`0.03`): the tied pair stays in input order in the sorted list, and the result length
is bounded. -/
theorem find_best_matches_spec_witness :
    List.Sublist
      [(candA, compute_complementary_match reqW candA none),
        (candB, compute_complementary_match reqW candB none)]
      (sorted_matches reqW [reqW, candA, candInactive, candB] none) ∧
    (find_best_matches reqW [reqW, candA, candInactive, candB] none 10).length ≤ 10 :=
  ⟨((find_best_matches_spec reqW [reqW, candA, candInactive, candB] none 10).2.2.2.1
      (candA, compute_complementary_match reqW candA none)
      (candB, compute_complementary_match reqW candB none)
      (by decide) (List.Sublist.refl _)),
   (find_best_matches_spec reqW [reqW, candA, candInactive, candB] none 10).2.1⟩

/-! ## The relational store (`database.py`) and the `app.py` handlers

Rows carry the columns the verified handlers read or write; `Option` marks nullable
columns.  `AppState` holds the tables in insertion order plus a fresh-id counter
(modelling autoincrement primary keys).  Timestamp columns are not modelled. -/

/-- A `users` row (`database.py` lines 37–66).  `skills` holds the ids of the
associated `skills` rows (the `user_skills` association). -/
structure UserRow where
  id : Nat
  email : String
  username : String
  password : Option String
  full_name : String
  bio : Option String
  profile_picture : Option String
  interests : Option String
  looking_for : Option String
  location : Option String
  timezone : Option String
  availability : Option String
  linkedin_url : Option String
  github_url : Option String
  profile_type : Option String
  is_active : Bool
  skills : List Nat
  deriving Repr, DecidableEq

/-- A `skills` row (`database.py` lines 69–80). -/
structure SkillRow where
  id : Nat
  name : String
  category : Option String
  deriving Repr, DecidableEq

/-- A `posts` row (`database.py` lines 154–171). -/
structure PostRow where
  id : Nat
  author_id : Nat
  content : Option String
  image : Option String
  slot_count : Nat
  post_type : Option String
  deriving Repr, DecidableEq

/-- A `post_slots` row (`database.py` lines 174–185). -/
structure PostSlotRow where
  id : Nat
  post_id : Nat
  user_id : Nat
  deriving Repr, DecidableEq

/-- A `slot_requests` row (`database.py` lines 202–214). -/
structure SlotRequestRow where
  id : Nat
  post_id : Nat
  requester_user_id : Nat
  status : String
  deriving Repr, DecidableEq

/-- A `conversations` row (`database.py` lines 119–132). -/
structure ConversationRow where
  id : Nat
  user1_id : Nat
  user2_id : Nat
  deriving Repr, DecidableEq

/-- A `messages` row (`database.py` lines 135–151). -/
structure MessageRow where
  id : Nat
  conversation_id : Nat
  sender_id : Nat
  content : String
  is_initial_greeting : Bool
  slot_request_id : Option Nat
  read : Bool
  deriving Repr, DecidableEq

/-- The relational store, tables in insertion order, plus a fresh-id counter. -/
structure AppState where
  users : List UserRow
  skills : List SkillRow
  posts : List PostRow
  post_slots : List PostSlotRow
  slot_requests : List SlotRequestRow
  conversations : List ConversationRow
  messages : List MessageRow
  next_id : Nat
  deriving Repr, DecidableEq

/-- An HTTPException: status code and detail text. -/
structure HTTPError where
  status : Nat
  detail : String
  deriving Repr, DecidableEq

/-- `app.py` lines 284–310, `GET /api/users/:id`: the lookup filters on
`User.is_active == True`; a soft-deleted user is a 404. -/
def get_user (s : AppState) (user_id : Nat) : Except HTTPError UserRow :=
  match s.users.find? (fun u => u.id == user_id && u.is_active) with
  | none => .error ⟨404, "User not found"⟩
  | some user => .ok user

/-- `models.py` lines 30–43, `UserUpdate`: every field optional. -/
structure UserUpdate where
  full_name : Option String := none
  bio : Option String := none
  profile_picture : Option String := none
  interests : Option (List String) := none
  looking_for : Option (List String) := none
  location : Option String := none
  timezone : Option String := none
  availability : Option String := none
  linkedin_url : Option String := none
  github_url : Option String := none
  profile_type : Option String := none
  skill_names : Option (List String) := none
  deriving Repr, DecidableEq

/-- `json.dumps` on a list of strings (separator `", "`; escaping inside the strings is
not modelled — no claim depends on it). -/
def jsonDumps (l : List String) : String :=
  "[" ++ String.intercalate ", " (l.map (fun s => "\"" ++ s ++ "\"")) ++ "]"

/-- The skill get-or-create loop of `app.py` lines 345–353 (also used at user
creation): resolve each name case-insensitively (`Skill.name.ilike`), creating a new
uncategorized `Skill` row for names with no match.  Returns the updated skill table,
the next fresh id, and the resolved skill ids in order. -/
def resolve_skills (skills : List SkillRow) (next_id : Nat) (names : List String) :
    List SkillRow × Nat × List Nat :=
  names.foldl (fun acc name =>
    match acc.1.find? (fun sk => pyLower sk.name == pyLower name) with
    | some sk => (acc.1, acc.2.1, acc.2.2 ++ [sk.id])
    | none => (acc.1 ++ [⟨acc.2.1, name, none⟩], acc.2.1 + 1, acc.2.2 ++ [acc.2.1]))
    (skills, next_id, [])

/-- `app.py` lines 313–374, `PUT /api/users/:id`: the lookup does **not** filter on
the active flag; each present field overwrites the stored value (list-valued fields
are stored as their JSON encoding); a present `skill_names` fully replaces the skill
set via the get-or-create loop. -/
def update_user (s : AppState) (user_id : Nat) (upd : UserUpdate) :
    AppState × Except HTTPError UserRow :=
  match s.users.find? (fun u => u.id == user_id) with
  | none => (s, .error ⟨404, "User not found"⟩)
  | some user =>
    let user1 : UserRow :=
      { user with
        full_name := upd.full_name.getD user.full_name
        bio := upd.bio <|> user.bio
        profile_picture := upd.profile_picture <|> user.profile_picture
        interests := (upd.interests.map jsonDumps) <|> user.interests
        looking_for := (upd.looking_for.map jsonDumps) <|> user.looking_for
        location := upd.location <|> user.location
        timezone := upd.timezone <|> user.timezone
        availability := upd.availability <|> user.availability
        linkedin_url := upd.linkedin_url <|> user.linkedin_url
        github_url := upd.github_url <|> user.github_url
        profile_type := upd.profile_type <|> user.profile_type }
    match upd.skill_names with
    | none =>
      ({ s with users := s.users.map (fun u => if u.id == user_id then user1 else u) },
       .ok user1)
    | some names =>
      let res := resolve_skills s.skills s.next_id names
      let user2 := { user1 with skills := res.2.2 }
      ({ s with
          users := s.users.map (fun u => if u.id == user_id then user2 else u)
          skills := res.1
          next_id := res.2.1 },
       .ok user2)

/-- The both-orderings conversation lookup used at `app.py` lines 672–676 and
1089–1093: does row `c` pair users `a` and `b` (in either orientation)? -/
def pairPred (a b : Nat) (c : ConversationRow) : Bool :=
  (c.user1_id == a && c.user2_id == b) || (c.user1_id == b && c.user2_id == a)

/-- `app.py` lines 660–698, `POST /api/conversations`: 404 unless both users exist;
400 on self-messaging; 400 if a conversation already exists in either orientation;
otherwise insert the conversation with the numerically smaller id first and the
initial greeting message from the sender. -/
def create_conversation (s : AppState) (sender_id other_user_id : Nat)
    (initial_message : String) : AppState × Except HTTPError ConversationRow :=
  if (s.users.find? (fun u => u.id == sender_id)).isNone ∨
      (s.users.find? (fun u => u.id == other_user_id)).isNone then
    (s, .error ⟨404, "User not found"⟩)
  else if sender_id == other_user_id then
    (s, .error ⟨400, "Cannot message yourself"⟩)
  else
    match s.conversations.find? (pairPred sender_id other_user_id) with
    | some _ => (s, .error ⟨400, "Conversation already exists"⟩)
    | none =>
      let conv : ConversationRow :=
        ⟨s.next_id, min sender_id other_user_id, max sender_id other_user_id⟩
      let msg : MessageRow :=
        ⟨s.next_id + 1, conv.id, sender_id, initial_message, true, none, false⟩
      ({ s with
          conversations := s.conversations ++ [conv]
          messages := s.messages ++ [msg]
          next_id := s.next_id + 2 },
       .ok conv)

/-- `app.py` lines 826–858, `POST /api/conversations/:id/messages`: 404 unless the
conversation exists; 403 unless the sender is a participant; 400 if the conversation
holds exactly one message which is the initial greeting from this same sender
("wait for reply" rule); otherwise append the message. -/
def send_message (s : AppState) (conversation_id : Nat) (content : String)
    (is_initial_greeting : Bool) (sender_id : Nat) :
    AppState × Except HTTPError MessageRow :=
  match s.conversations.find? (fun c => c.id == conversation_id) with
  | none => (s, .error ⟨404, "Conversation not found"⟩)
  | some conversation =>
    if conversation.user1_id ≠ sender_id ∧ conversation.user2_id ≠ sender_id then
      (s, .error ⟨403, "Not authorized to send messages in this conversation"⟩)
    else
      let existing_messages := s.messages.filter
        (fun m => m.conversation_id == conversation_id)
      let blocked : Bool :=
        match existing_messages with
        | [first_message] =>
          first_message.is_initial_greeting && first_message.sender_id == sender_id
        | _ => false
      if blocked then
        (s, .error ⟨400, "Please wait for the other user to reply to your initial message"⟩)
      else
        let msg : MessageRow :=
          ⟨s.next_id, conversation_id, sender_id, content, is_initial_greeting, none, false⟩
        ({ s with messages := s.messages ++ [msg], next_id := s.next_id + 1 }, .ok msg)

/-- `app.py` lines 1039–1129, `POST /api/posts/:id/request-slot`: existence checks,
author/duplicate/slot/full rejections, then create a pending `SlotRequest`,
find-or-create the `Conversation` with the post author (canonical min/max order), and
append the fixed celebratory message referencing the request. -/
def request_slot (s : AppState) (post_id user_id : Nat) :
    AppState × Except HTTPError SlotRequestRow :=
  match s.posts.find? (fun p => p.id == post_id) with
  | none => (s, .error ⟨404, "Post not found"⟩)
  | some post =>
    if (s.users.find? (fun u => u.id == user_id)).isNone then
      (s, .error ⟨404, "User not found"⟩)
    else if post.author_id == user_id then
      (s, .error ⟨400, "You cannot request a slot in your own post"⟩)
    else if (s.slot_requests.find? (fun r =>
        r.post_id == post_id && r.requester_user_id == user_id &&
        (r.status == "pending" || r.status == "accepted"))).isSome then
      (s, .error ⟨400, "You have already requested a slot in this post"⟩)
    else if (s.post_slots.find? (fun sl =>
        sl.post_id == post_id && sl.user_id == user_id)).isSome then
      (s, .error ⟨400, "You already have a slot in this post"⟩)
    else if post.slot_count ≤ s.post_slots.countP (fun sl => sl.post_id == post_id) then
      (s, .error ⟨400, "All slots are already filled"⟩)
    else
      let sr : SlotRequestRow := ⟨s.next_id, post_id, user_id, "pending"⟩
      match s.conversations.find? (pairPred user_id post.author_id) with
      | some conv =>
        let msg : MessageRow := ⟨s.next_id + 1, conv.id, user_id,
          "I\x27d like to help you with this! 🚀", false, some sr.id, false⟩
        ({ s with
            slot_requests := s.slot_requests ++ [sr]
            messages := s.messages ++ [msg]
            next_id := s.next_id + 2 },
         .ok sr)
      | none =>
        let conv : ConversationRow :=
          ⟨s.next_id + 1, min user_id post.author_id, max user_id post.author_id⟩
        let msg : MessageRow := ⟨s.next_id + 2, conv.id, user_id,
          "I\x27d like to help you with this! 🚀", false, some sr.id, false⟩
        ({ s with
            slot_requests := s.slot_requests ++ [sr]
            conversations := s.conversations ++ [conv]
            messages := s.messages ++ [msg]
            next_id := s.next_id + 3 },
         .ok sr)

/-- `app.py` lines 1217–1260, `PUT /api/posts/:id/slot-requests/:rid`: after the
post/author/request/status checks, the request's status is updated **and committed**;
only then, on "accepted", is the capacity recheck performed — its failure leaves the
status update in place and creates no slot. -/
def update_slot_request (s : AppState) (post_id request_id : Nat) (new_status : String)
    (current_user_id : Nat) : AppState × Except HTTPError String :=
  match s.posts.find? (fun p => p.id == post_id) with
  | none => (s, .error ⟨404, "Post not found"⟩)
  | some post =>
    if post.author_id ≠ current_user_id then
      (s, .error ⟨403, "Only the post author can manage slot requests"⟩)
    else
      match s.slot_requests.find? (fun r => r.id == request_id && r.post_id == post_id) with
      | none => (s, .error ⟨404, "Slot request not found"⟩)
      | some slot_request =>
        if new_status ≠ "accepted" ∧ new_status ≠ "rejected" then
          (s, .error ⟨400, "Status must be \x27accepted\x27 or \x27rejected\x27"⟩)
        else
          let updated_requests := s.slot_requests.map
            (fun r => if r.id == slot_request.id then { r with status := new_status } else r)
          let s1 := { s with slot_requests := updated_requests }
          if new_status == "accepted" then
            if post.slot_count ≤ s1.post_slots.countP (fun sl => sl.post_id == post_id) then
              (s1, .error ⟨400, "All slots are already filled"⟩)
            else
              let slot : PostSlotRow := ⟨s1.next_id, post_id, slot_request.requester_user_id⟩
              ({ s1 with post_slots := s1.post_slots ++ [slot], next_id := s1.next_id + 1 },
               .ok ("Slot request " ++ new_status))
          else
            (s1, .ok ("Slot request " ++ new_status))

/-- Modelled from the spec: the handler for `POST /api/posts/:id/claim-slot` is not
present under `src/` — only its request-body model (`models.ClaimSlotRequest`, imported
by `app.py`) is.  Following §4.4 "Slot claiming (direct)" and the §6 route table:
404 for a missing post or user; 400 when the claimant is the post's own author,
already holds a slot on that post, or the post's slot count is already met; on
success a `PostSlot` row is created. -/
def claim_slot (s : AppState) (post_id user_id : Nat) :
    AppState × Except HTTPError PostSlotRow :=
  match s.posts.find? (fun p => p.id == post_id) with
  | none => (s, .error ⟨404, "Post not found"⟩)
  | some post =>
    if (s.users.find? (fun u => u.id == user_id)).isNone then
      (s, .error ⟨404, "User not found"⟩)
    else if post.author_id == user_id then
      (s, .error ⟨400, "You cannot claim a slot in your own post"⟩)
    else if (s.post_slots.find? (fun sl =>
        sl.post_id == post_id && sl.user_id == user_id)).isSome then
      (s, .error ⟨400, "You already have a slot in this post"⟩)
    else if post.slot_count ≤ s.post_slots.countP (fun sl => sl.post_id == post_id) then
      (s, .error ⟨400, "All slots are already filled"⟩)
    else
      let slot : PostSlotRow := ⟨s.next_id, post_id, user_id⟩
      ({ s with post_slots := s.post_slots ++ [slot], next_id := s.next_id + 1 },
       .ok slot)

/-- C10: soft-deleted users remain mutable through the update endpoint.  If a user
row exists with `is_active = false` (and ids are unique), `GET /api/users/:id`
returns the not-found failure — its lookup filters to active users — while
`PUT /api/users/:id` on the same id succeeds and applies the supplied field changes,
because the update handler's lookup does not check the active flag. -/
theorem soft_deleted_user_update (s : AppState) (uid : Nat) (u : UserRow)
    (hfind : s.users.find? (fun v => v.id == uid) = some u)
    (hunique : ∀ v ∈ s.users, v.id = uid → v = u)
    (hinactive : u.is_active = false) :
    get_user s uid = .error ⟨404, "User not found"⟩ ∧
    ∀ upd : UserUpdate, ∃ u2 : UserRow,
      (update_user s uid upd).2 = .ok u2 ∧
      u2.id = u.id ∧ u2.is_active = false ∧
      u2.full_name = upd.full_name.getD u.full_name ∧
      u2.bio = (upd.bio <|> u.bio) ∧
      u2.location = (upd.location <|> u.location) ∧
      u2.timezone = (upd.timezone <|> u.timezone) ∧
      u2.availability = (upd.availability <|> u.availability) ∧
      u2.profile_type = (upd.profile_type <|> u.profile_type) := by
  constructor
  · have hnone : s.users.find? (fun v => v.id == uid && v.is_active) = none := by
      rw [List.find?_eq_none]
      intro v hv hcond
      simp only [Bool.and_eq_true, beq_iff_eq] at hcond
      have hvu := hunique v hv hcond.1
      rw [hvu, hinactive] at hcond
      exact absurd hcond.2 (by simp)
    rw [get_user, hnone]
  · intro upd
    cases hsk : upd.skill_names with
    | none =>
      simp only [update_user, hfind, hsk]
      exact ⟨_, rfl, rfl, hinactive, rfl, rfl, rfl, rfl, rfl, rfl⟩
    | some names =>
      simp only [update_user, hfind, hsk]
      exact ⟨_, rfl, rfl, hinactive, rfl, rfl, rfl, rfl, rfl, rfl⟩

/-- An inactive (soft-deleted) user row for the C10 witness. -/
def ghostUser : UserRow :=
  ⟨5, "ghost@example.com", "ghost", none, "Ghost", none, none, none, none, none,
    none, none, none, none, none, false, []⟩

/-- Store holding only the inactive user, for the C10 witness. -/
def stateW10 : AppState := ⟨[ghostUser], [], [], [], [], [], [], 6⟩

/-- Witness for C10: the inactive user 5 is a 404 on GET but updatable via PUT. -/
theorem soft_deleted_user_update_witness :
    get_user stateW10 5 = .error ⟨404, "User not found"⟩ ∧
    ∃ u2 : UserRow, (update_user stateW10 5 { full_name := some "Casper" }).2 = .ok u2 ∧
      u2.full_name = "Casper" ∧ u2.is_active = false := by
  obtain ⟨h1, h2⟩ := soft_deleted_user_update stateW10 5 ghostUser (by decide) (by decide) rfl
  obtain ⟨u2, e1, _, e3, e4, _⟩ := h2 { full_name := some "Casper" }
  exact ⟨h1, u2, e1, by simpa using e4, e3⟩

/-- C4: on the post-scoped slot-request decision, deciding "accepted" while the
post's slots are already full fails with "All slots are already filled", yet the
request's persisted status has already been flipped to "accepted" by then, and no
`PostSlot` row is created — the error path is not atomic. -/
theorem update_slot_request_accept_not_atomic (s : AppState) (post : PostRow)
    (sr : SlotRequestRow) (pid rid cur : Nat)
    (hpost : s.posts.find? (fun p => p.id == pid) = some post)
    (hauthor : post.author_id = cur)
    (hsr : s.slot_requests.find? (fun r => r.id == rid && r.post_id == pid) = some sr)
    (hfull : post.slot_count ≤ s.post_slots.countP (fun sl => sl.post_id == pid)) :
    (update_slot_request s pid rid "accepted" cur).2 =
      .error ⟨400, "All slots are already filled"⟩ ∧
    (update_slot_request s pid rid "accepted" cur).1.slot_requests =
      s.slot_requests.map
        (fun r => if r.id == sr.id then { r with status := "accepted" } else r) ∧
    { sr with status := "accepted" } ∈
      (update_slot_request s pid rid "accepted" cur).1.slot_requests ∧
    (update_slot_request s pid rid "accepted" cur).1.post_slots = s.post_slots := by
  have hne : ¬ (post.author_id ≠ cur) := by simp [hauthor]
  have hstat : ¬ (("accepted" : String) ≠ "accepted" ∧ ("accepted" : String) ≠ "rejected") := by
    simp
  have heq : (update_slot_request s pid rid "accepted" cur) =
      ({ s with slot_requests := s.slot_requests.map (fun r => if r.id == sr.id then { r with status := "accepted" } else r) }, .error ⟨400, "All slots are already filled"⟩) := by
    simp only [update_slot_request, hpost, hsr, if_neg hne, if_neg hstat, beq_self_eq_true,
      if_true]
    rw [if_pos hfull]
  have hmem : sr ∈ s.slot_requests := List.mem_of_find?_eq_some hsr
  refine ⟨by rw [heq], by rw [heq], ?_, by rw [heq]⟩
  rw [heq]
  have himg := List.mem_map_of_mem
    (fun r => if r.id == sr.id then { r with status := "accepted" } else r) hmem
  simpa using himg

/-- Store for the C4 witness: post 1 (author 10) with a single slot already filled by
user 20 and a pending slot request 5 from user 30. -/
def stateW4 : AppState :=
  ⟨[], [], [⟨1, 10, none, none, 1, some "regular"⟩], [⟨2, 1, 20⟩],
    [⟨5, 1, 30, "pending"⟩], [], [], 6⟩

/-- Witness for C4: accepting request 5 on the already-full post 1 errors, yet the
stored request now reads "accepted" and no slot was added. -/
theorem update_slot_request_accept_not_atomic_witness :
    (update_slot_request stateW4 1 5 "accepted" 10).2 =
      .error ⟨400, "All slots are already filled"⟩ ∧
    (update_slot_request stateW4 1 5 "accepted" 10).1.slot_requests =
      [⟨5, 1, 30, "accepted"⟩] ∧
    (update_slot_request stateW4 1 5 "accepted" 10).1.post_slots = [⟨2, 1, 20⟩] := by
  obtain ⟨h1, h2, _, h4⟩ := update_slot_request_accept_not_atomic stateW4
    (⟨1, 10, none, none, 1, some "regular"⟩) (⟨5, 1, 30, "pending"⟩) 1 5 10
    (by decide) rfl (by decide) (by decide)
  refine ⟨h1, ?_, h4⟩
  rw [h2]
  decide

/-- C8: for a participant's send, if the conversation holds exactly one message, that
message is the initial greeting, and its sender is the same sender, the send is
rejected with the must-wait failure and the state is unchanged; in every other state
(zero messages, the single message is not a same-sender greeting, or several
messages) the send succeeds and exactly the new message is appended. -/
theorem send_message_wait_rule (s : AppState) (cid sender : Nat) (content : String)
    (flag : Bool) (conv : ConversationRow)
    (hconv : s.conversations.find? (fun c => c.id == cid) = some conv)
    (hpart : conv.user1_id = sender ∨ conv.user2_id = sender) :
    ((∃ m : MessageRow, s.messages.filter (fun m => m.conversation_id == cid) = [m] ∧
        m.is_initial_greeting = true ∧ m.sender_id = sender) →
      send_message s cid content flag sender =
        (s, .error ⟨400, "Please wait for the other user to reply to your initial message"⟩)) ∧
    ((∀ m : MessageRow, s.messages.filter (fun m => m.conversation_id == cid) = [m] →
        m.is_initial_greeting = false ∨ m.sender_id ≠ sender) →
      send_message s cid content flag sender =
        ({ s with
            messages := s.messages ++ [⟨s.next_id, cid, sender, content, flag, none, false⟩]
            next_id := s.next_id + 1 },
          .ok ⟨s.next_id, cid, sender, content, flag, none, false⟩)) := by
  have hauth : ¬ (conv.user1_id ≠ sender ∧ conv.user2_id ≠ sender) := by tauto
  constructor
  · rintro ⟨m, hm, hg, hs⟩
    simp [send_message, hconv, if_neg hauth, hm, hg, hs]
  · intro hforall
    cases hfil : s.messages.filter (fun m => m.conversation_id == cid) with
    | nil => simp [send_message, hconv, if_neg hauth, hfil]
    | cons a tl =>
      cases tl with
      | nil =>
        rcases hforall a hfil with h | h
        · simp [send_message, hconv, if_neg hauth, hfil, h]
        · simp [send_message, hconv, if_neg hauth, hfil, beq_iff_eq, h]
      | cons b tl2 => simp [send_message, hconv, if_neg hauth, hfil]

/-- The single greeting message of the C8 witness store. -/
def greetingW : MessageRow := ⟨2, 1, 3, "Hi! Want to collaborate?", true, none, false⟩

/-- C8 witness store: conversation 1 between users 3 and 7 holding only the initial
greeting from user 3. -/
def stateW8 : AppState := ⟨[], [], [], [], [], [⟨1, 3, 7⟩], [greetingW], 10⟩

/-- Witness for C8: user 3's second consecutive send is rejected; user 7's reply
succeeds. -/
theorem send_message_wait_rule_witness :
    send_message stateW8 1 "hello again" false 3 =
      (stateW8, .error ⟨400, "Please wait for the other user to reply to your initial message"⟩) ∧
    (send_message stateW8 1 "a reply" false 7).2 = .ok ⟨10, 1, 7, "a reply", false, none, false⟩ := by
  constructor
  · exact (send_message_wait_rule stateW8 1 3 "hello again" false ⟨1, 3, 7⟩ (by decide)
      (Or.inl rfl)).1 ⟨greetingW, by decide, rfl, rfl⟩
  · have h := (send_message_wait_rule stateW8 1 7 "a reply" false ⟨1, 3, 7⟩ (by decide)
      (Or.inr rfl)).2 (fun m hm => by
        injection (show [greetingW] = [m] from hm) with h1 _
        exact Or.inr (by rw [← h1]; decide))
    rw [h]
    rfl

theorem claim_slot_ok (s : AppState) (post : PostRow) (pid uid : Nat)
    (hpost : s.posts.find? (fun p => p.id == pid) = some post)
    (hu : ∃ w, s.users.find? (fun u => u.id == uid) = some w)
    (hna : post.author_id ≠ uid)
    (hnodup : s.post_slots.find? (fun sl => sl.post_id == pid && sl.user_id == uid) = none)
    (hcap : s.post_slots.countP (fun sl => sl.post_id == pid) < post.slot_count) :
    claim_slot s pid uid =
      ({ s with post_slots := s.post_slots ++ [⟨s.next_id, pid, uid⟩], next_id := s.next_id + 1 },
        .ok ⟨s.next_id, pid, uid⟩) := by
  obtain ⟨w, hw⟩ := hu
  have h1 : (post.author_id == uid) = false := beq_eq_false_iff_ne.mpr hna
  have h2 : ¬ (post.slot_count ≤ s.post_slots.countP (fun sl => sl.post_id == pid)) :=
    not_le.mpr hcap
  simp [claim_slot, hpost, hw, h1, hnodup, h2]

theorem claim_slot_author_rejected (s : AppState) (post : PostRow) (pid uid : Nat)
    (hpost : s.posts.find? (fun p => p.id == pid) = some post)
    (hu : ∃ w, s.users.find? (fun u => u.id == uid) = some w)
    (ha : post.author_id = uid) :
    claim_slot s pid uid = (s, .error ⟨400, "You cannot claim a slot in your own post"⟩) := by
  obtain ⟨w, hw⟩ := hu
  have h1 : (post.author_id == uid) = true := beq_iff_eq.mpr ha
  simp [claim_slot, hpost, hw, h1]

theorem claim_slot_duplicate_rejected (s : AppState) (post : PostRow) (pid uid : Nat)
    (hpost : s.posts.find? (fun p => p.id == pid) = some post)
    (hu : ∃ w, s.users.find? (fun u => u.id == uid) = some w)
    (hna : post.author_id ≠ uid)
    (hdup : (s.post_slots.find? (fun sl => sl.post_id == pid && sl.user_id == uid)).isSome) :
    claim_slot s pid uid = (s, .error ⟨400, "You already have a slot in this post"⟩) := by
  obtain ⟨w, hw⟩ := hu
  obtain ⟨sl, hsl⟩ := Option.isSome_iff_exists.mp hdup
  have h1 : (post.author_id == uid) = false := beq_eq_false_iff_ne.mpr hna
  simp [claim_slot, hpost, hw, h1, hsl]

theorem claim_slot_full_rejected (s : AppState) (post : PostRow) (pid uid : Nat)
    (hpost : s.posts.find? (fun p => p.id == pid) = some post)
    (hu : ∃ w, s.users.find? (fun u => u.id == uid) = some w)
    (hna : post.author_id ≠ uid)
    (hnodup : s.post_slots.find? (fun sl => sl.post_id == pid && sl.user_id == uid) = none)
    (hfull : post.slot_count ≤ s.post_slots.countP (fun sl => sl.post_id == pid)) :
    claim_slot s pid uid = (s, .error ⟨400, "All slots are already filled"⟩) := by
  obtain ⟨w, hw⟩ := hu
  have h1 : (post.author_id == uid) = false := beq_eq_false_iff_ne.mpr hna
  simp [claim_slot, hpost, hw, h1, hnodup, hfull]

/-- C3 (spec-modelled): for a post with `slot_count = 2` and no slots yet, two
distinct non-author users can each successfully claim a slot (a PostSlot row is
created for each), a third user's claim then fails as full, the post's own author is
rejected both before and after, and a user who already holds a slot is rejected when
claiming again. -/
theorem claim_slot_lifecycle (s : AppState) (post : PostRow) (pid a u1 u2 u3 : Nat)
    (hpost : s.posts.find? (fun p => p.id == pid) = some post)
    (hauthor : post.author_id = a)
    (hcount : post.slot_count = 2)
    (hnoslots : s.post_slots.filter (fun sl => sl.post_id == pid) = [])
    (hu1 : ∃ w, s.users.find? (fun u => u.id == u1) = some w)
    (hu2 : ∃ w, s.users.find? (fun u => u.id == u2) = some w)
    (hu3 : ∃ w, s.users.find? (fun u => u.id == u3) = some w)
    (hua : ∃ w, s.users.find? (fun u => u.id == a) = some w)
    (h1a : u1 ≠ a) (h2a : u2 ≠ a) (h3a : u3 ≠ a)
    (h12 : u1 ≠ u2) (h13 : u1 ≠ u3) (h23 : u2 ≠ u3) :
    (claim_slot s pid u1).2 = .ok ⟨s.next_id, pid, u1⟩ ∧
    (claim_slot (claim_slot s pid u1).1 pid u2).2 = .ok ⟨s.next_id + 1, pid, u2⟩ ∧
    (⟨s.next_id, pid, u1⟩ : PostSlotRow) ∈
      (claim_slot (claim_slot s pid u1).1 pid u2).1.post_slots ∧
    (⟨s.next_id + 1, pid, u2⟩ : PostSlotRow) ∈
      (claim_slot (claim_slot s pid u1).1 pid u2).1.post_slots ∧
    (claim_slot (claim_slot (claim_slot s pid u1).1 pid u2).1 pid u3).2 =
      .error ⟨400, "All slots are already filled"⟩ ∧
    (claim_slot (claim_slot (claim_slot s pid u1).1 pid u2).1 pid u1).2 =
      .error ⟨400, "You already have a slot in this post"⟩ ∧
    (claim_slot s pid a).2 = .error ⟨400, "You cannot claim a slot in your own post"⟩ ∧
    (claim_slot (claim_slot (claim_slot s pid u1).1 pid u2).1 pid a).2 =
      .error ⟨400, "You cannot claim a slot in your own post"⟩ := by
  have hcount0 : s.post_slots.countP (fun sl => sl.post_id == pid) = 0 := by
    rw [List.countP_eq_length_filter, hnoslots]
    rfl
  have hnodupAll : ∀ uu, s.post_slots.find?
      (fun sl => sl.post_id == pid && sl.user_id == uu) = none := by
    intro uu
    rw [List.find?_eq_none]
    intro x hx hcond
    simp only [Bool.and_eq_true, beq_iff_eq] at hcond
    have hmem : x ∈ s.post_slots.filter (fun sl => sl.post_id == pid) :=
      List.mem_filter.mpr ⟨hx, by simp [hcond.1]⟩
    rw [hnoslots] at hmem
    exact absurd hmem (List.not_mem_nil x)
  have hna1 : post.author_id ≠ u1 := fun h => h1a (hauthor ▸ h).symm
  have hna2 : post.author_id ≠ u2 := fun h => h2a (hauthor ▸ h).symm
  have hna3 : post.author_id ≠ u3 := fun h => h3a (hauthor ▸ h).symm
  have e1 := claim_slot_ok s post pid u1 hpost hu1 hna1 (hnodupAll u1)
    (by rw [hcount0, hcount]; omega)
  -- the store after u1's claim
  have e2 := claim_slot_ok (claim_slot s pid u1).1 post pid u2
    (by rw [e1]; exact hpost) (by rw [e1]; exact hu2)
    hna2
    (by
      rw [e1]
      simp only [List.find?_append, hnodupAll u2, Option.none_or]
      simp [beq_eq_false_iff_ne, h12])
    (by
      rw [e1]
      simp only [List.countP_append, hcount0, hcount]
      simp)
  have hslots2 : (claim_slot (claim_slot s pid u1).1 pid u2).1.post_slots =
      s.post_slots ++ [⟨s.next_id, pid, u1⟩] ++ [⟨s.next_id + 1, pid, u2⟩] := by
    rw [e2, e1]
  have hcount2 : (claim_slot (claim_slot s pid u1).1 pid u2).1.post_slots.countP
      (fun sl => sl.post_id == pid) = 2 := by
    rw [hslots2]
    simp [List.countP_append, hcount0]
  have hposts2 : (claim_slot (claim_slot s pid u1).1 pid u2).1.posts.find?
      (fun p => p.id == pid) = some post := by
    rw [e2, e1]
    exact hpost
  have husers2 : ∀ uu, (∃ w, s.users.find? (fun u => u.id == uu) = some w) →
      ∃ w, ((claim_slot (claim_slot s pid u1).1 pid u2).1.users.find?
        (fun u => u.id == uu) = some w) := by
    intro uu h
    rw [e2, e1]
    exact h
  refine ⟨by rw [e1], by rw [e2, e1], ?_, ?_, ?_, ?_, ?_, ?_⟩
  · rw [hslots2]; simp
  · rw [hslots2]; simp
  · rw [claim_slot_full_rejected _ post pid u3 hposts2 (husers2 u3 hu3) hna3
      (by
        rw [hslots2]
        simp only [List.find?_append, hnodupAll u3, Option.none_or]
        simp [beq_eq_false_iff_ne, h13, h23])
      (by rw [hcount2, hcount])]
  · rw [claim_slot_duplicate_rejected _ post pid u1 hposts2 (husers2 u1 hu1) hna1
      (by
        rw [hslots2]
        simp only [List.find?_append, hnodupAll u1, Option.none_or]
        simp)]
  · rw [claim_slot_author_rejected s post pid a hpost hua hauthor]
  · rw [claim_slot_author_rejected _ post pid a hposts2 (husers2 a hua) hauthor]

/-- A minimal active user row for concrete stores. -/
def simpleUser (i : Nat) (name : String) : UserRow :=
  ⟨i, name ++ "@example.com", name, none, name, none, none, none, none, none,
    none, none, none, none, none, true, []⟩

/-- C3 witness store: post 1 by author 10 with `slot_count = 2`, users 21/22/23. -/
def stateW3 : AppState :=
  ⟨[simpleUser 10 "author", simpleUser 21 "alice", simpleUser 22 "bob",
      simpleUser 23 "carol"],
    [], [⟨1, 10, none, none, 2, some "regular"⟩], [], [], [], [], 50⟩

/-- Witness for C3: the full slot lifecycle on the concrete store. -/
theorem claim_slot_lifecycle_witness :
    (claim_slot stateW3 1 21).2 = .ok ⟨50, 1, 21⟩ ∧
    (claim_slot (claim_slot stateW3 1 21).1 1 22).2 = .ok ⟨51, 1, 22⟩ ∧
    (claim_slot (claim_slot (claim_slot stateW3 1 21).1 1 22).1 1 23).2 =
      .error ⟨400, "All slots are already filled"⟩ ∧
    (claim_slot stateW3 1 10).2 = .error ⟨400, "You cannot claim a slot in your own post"⟩ ∧
    (claim_slot (claim_slot (claim_slot stateW3 1 21).1 1 22).1 1 21).2 =
      .error ⟨400, "You already have a slot in this post"⟩ := by
  obtain ⟨c1, c2, _, _, c5, c6, c7, _⟩ := claim_slot_lifecycle stateW3
    ⟨1, 10, none, none, 2, some "regular"⟩ 1 10 21 22 23
    (by decide) rfl rfl rfl ⟨_, rfl⟩ ⟨_, rfl⟩ ⟨_, rfl⟩ ⟨_, rfl⟩
    (by decide) (by decide) (by decide) (by decide) (by decide) (by decide)
  exact ⟨c1, c2, c5, c7, c6⟩

/-- Two conversation rows cover the same unordered pair of users. -/
def sameUnorderedPair (c d : ConversationRow) : Prop :=
  (c.user1_id = d.user1_id ∧ c.user2_id = d.user2_id) ∨
  (c.user1_id = d.user2_id ∧ c.user2_id = d.user1_id)

instance (c d : ConversationRow) : Decidable (sameUnorderedPair c d) := by
  unfold sameUnorderedPair
  infer_instance

/-- The conversation-table invariant: every row is canonically ordered
(`user1_id ≤ user2_id`) and no two rows cover the same unordered pair. -/
def canonList (l : List ConversationRow) : Prop :=
  (∀ c ∈ l, c.user1_id ≤ c.user2_id) ∧
  List.Pairwise (fun c d => ¬ sameUnorderedPair c d) l

/-- `canonList` for the whole store. -/
def ConvCanonical (s : AppState) : Prop := canonList s.conversations

theorem pairPred_canonical_row (a b i : Nat) :
    pairPred a b (⟨i, min a b, max a b⟩ : ConversationRow) = true ∧
    pairPred b a (⟨i, min a b, max a b⟩ : ConversationRow) = true := by
  simp only [pairPred, Bool.or_eq_true, Bool.and_eq_true, beq_iff_eq]
  omega

theorem find?_pairPred_symm {l : List ConversationRow} {a b : Nat}
    (hf : l.find? (pairPred a b) = none) : l.find? (pairPred b a) = none := by
  rw [List.find?_eq_none] at hf ⊢
  intro x hx
  have h1 := hf x hx
  simp only [pairPred, Bool.or_eq_true, Bool.and_eq_true, beq_iff_eq] at h1 ⊢
  tauto

theorem canonList_append_fresh {l : List ConversationRow} (h : canonList l) (a b i : Nat)
    (hfind : l.find? (pairPred a b) = none) :
    canonList (l ++ [⟨i, min a b, max a b⟩]) := by
  have hnone := List.find?_eq_none.mp hfind
  constructor
  · intro c hc
    rcases List.mem_append.mp hc with h1 | h2
    · exact h.1 c h1
    · have hc2 : c = ⟨i, min a b, max a b⟩ := by simpa using h2
      rw [hc2]
      exact min_le_max
  · rw [List.pairwise_append]
    refine ⟨h.2, List.pairwise_singleton _ _, ?_⟩
    intro c hc d hd
    have hd2 : d = ⟨i, min a b, max a b⟩ := by simpa using hd
    subst hd2
    intro hpair
    have hcanon := h.1 c hc
    have hnc := hnone c hc
    simp only [pairPred, Bool.or_eq_true, Bool.and_eq_true, beq_iff_eq, not_or] at hnc
    rcases hpair with ⟨p1, p2⟩ | ⟨p1, p2⟩ <;> simp only [] at p1 p2 <;> omega

theorem create_conversation_cases (s : AppState) (sender other : Nat) (msg : String) :
    (∃ e, create_conversation s sender other msg = (s, .error e)) ∨
    (create_conversation s sender other msg =
        ({ s with
            conversations := s.conversations ++
              [⟨s.next_id, min sender other, max sender other⟩]
            messages := s.messages ++ [⟨s.next_id + 1, s.next_id, sender, msg, true, none, false⟩]
            next_id := s.next_id + 2 },
          .ok ⟨s.next_id, min sender other, max sender other⟩) ∧
      s.conversations.find? (pairPred sender other) = none ∧
      ¬ ((s.users.find? (fun u => u.id == sender)).isNone ∨
          (s.users.find? (fun u => u.id == other)).isNone) ∧
      ¬ ((sender == other) = true)) := by
  unfold create_conversation
  split_ifs with h1 h2
  · exact Or.inl ⟨_, rfl⟩
  · exact Or.inl ⟨_, rfl⟩
  · cases hf : s.conversations.find? (pairPred sender other) with
    | some c => exact Or.inl ⟨_, rfl⟩
    | none => exact Or.inr ⟨rfl, rfl, h1, h2⟩

theorem request_slot_conversations (s : AppState) (pid uid : Nat) :
    (request_slot s pid uid).1.conversations = s.conversations ∨
    ∃ post i, s.posts.find? (fun p => p.id == pid) = some post ∧
      s.conversations.find? (pairPred uid post.author_id) = none ∧
      (request_slot s pid uid).1.conversations =
        s.conversations ++ [⟨i, min uid post.author_id, max uid post.author_id⟩] := by
  unfold request_slot
  cases hp : s.posts.find? (fun p => p.id == pid) with
  | none => exact Or.inl rfl
  | some post =>
    dsimp only
    split_ifs with h1 h2 h3 h4 h5
    · exact Or.inl rfl
    · exact Or.inl rfl
    · exact Or.inl rfl
    · exact Or.inl rfl
    · exact Or.inl rfl
    · cases hc : s.conversations.find? (pairPred uid post.author_id) with
      | some conv => exact Or.inl rfl
      | none => exact Or.inr ⟨post, s.next_id + 1, rfl, hc, rfl⟩

/-- C7: assuming the conversation table is canonical (smaller id first, at most one row
per unordered pair), the create-conversation handler keeps it canonical, stores any new
pair as `(min, max)`, and rejects a second create for the same pair in either order;
the slot-request flow also keeps the invariant and reuses an existing conversation for
the requester/author pair instead of inserting a second one. -/
theorem conversation_pair_invariant (s : AppState) (h : ConvCanonical s) :
    (∀ sender other msg,
      (∀ conv, (create_conversation s sender other msg).2 = .ok conv →
        conv.user1_id = min sender other ∧ conv.user2_id = max sender other) ∧
      ConvCanonical (create_conversation s sender other msg).1 ∧
      (∀ conv msg2, (create_conversation s sender other msg).2 = .ok conv →
        (create_conversation (create_conversation s sender other msg).1 sender other msg2).2 =
          .error ⟨400, "Conversation already exists"⟩ ∧
        (create_conversation (create_conversation s sender other msg).1 other sender msg2).2 =
          .error ⟨400, "Conversation already exists"⟩)) ∧
    (∀ pid uid, ConvCanonical (request_slot s pid uid).1) ∧
    (∀ pid uid post conv,
      s.posts.find? (fun p => p.id == pid) = some post →
      s.conversations.find? (pairPred uid post.author_id) = some conv →
      (request_slot s pid uid).1.conversations = s.conversations) := by
  refine ⟨?_, ?_, ?_⟩
  · intro sender other msg
    rcases create_conversation_cases s sender other msg with ⟨e, he⟩ | ⟨heq, hfind, hu, hne⟩
    · refine ⟨?_, ?_, ?_⟩
      · intro conv hconv
        rw [he] at hconv
        exact absurd hconv (by simp)
      · rw [ConvCanonical, he]
        exact h
      · intro conv msg2 hconv
        rw [he] at hconv
        exact absurd hconv (by simp)
    · refine ⟨?_, ?_, ?_⟩
      · intro conv hconv
        rw [heq] at hconv
        simp only [Except.ok.injEq] at hconv
        rw [← hconv]
        exact ⟨rfl, rfl⟩
      · rw [ConvCanonical, heq]
        exact canonList_append_fresh h sender other s.next_id hfind
      · intro conv msg2 hconv
        rw [heq]
        dsimp only
        have hne2 : ¬ ((other == sender) = true) := by
          simp only [beq_iff_eq] at hne ⊢
          exact fun hx => hne hx.symm
        have hu2 : ¬ ((s.users.find? (fun u => u.id == other)).isNone ∨
            (s.users.find? (fun u => u.id == sender)).isNone) := by
          tauto
        constructor
        · simp only [create_conversation, if_neg hu, if_neg hne, List.find?_append, hfind,
            Option.none_or, List.find?_cons_of_pos _ (pairPred_canonical_row sender other s.next_id).1]
        · simp only [create_conversation, if_neg hu2, if_neg hne2, List.find?_append,
            find?_pairPred_symm hfind, Option.none_or,
            List.find?_cons_of_pos _ (pairPred_canonical_row sender other s.next_id).2]
  · intro pid uid
    rcases request_slot_conversations s pid uid with he | ⟨post, i, _, hc, he⟩
    · rw [ConvCanonical, he]
      exact h
    · rw [ConvCanonical, he]
      exact canonList_append_fresh h uid post.author_id i hc
  · intro pid uid post conv hp hc
    rcases request_slot_conversations s pid uid with he | ⟨post2, i, hp2, hc2, _⟩
    · exact he
    · rw [hp2] at hp
      simp only [Option.some.injEq] at hp
      rw [← hp] at hc
      rw [hc2] at hc
      exact absurd hc (by simp)

/-- C7 witness store: users 3 and 7, no conversations yet. -/
def stateW7 : AppState :=
  ⟨[simpleUser 3 "dana", simpleUser 7 "evan"], [], [], [], [], [], [], 100⟩

/-- Witness for C7: creating a conversation from sender 7 to user 3 stores the pair as
`(3, 7)`, and a repeat create in either order is rejected as already existing. -/
theorem conversation_pair_invariant_witness :
    (∃ conv : ConversationRow, (create_conversation stateW7 7 3 "Hello!").2 = .ok conv ∧
      conv.user1_id = 3 ∧ conv.user2_id = 7) ∧
    (create_conversation (create_conversation stateW7 7 3 "Hello!").1 3 7 "Hi again").2 =
      .error ⟨400, "Conversation already exists"⟩ ∧
    (create_conversation (create_conversation stateW7 7 3 "Hello!").1 7 3 "Hi again").2 =
      .error ⟨400, "Conversation already exists"⟩ := by
  have hcanon : ConvCanonical stateW7 :=
    ⟨fun c hc => absurd hc (List.not_mem_nil c), List.Pairwise.nil⟩
  obtain ⟨hcreate, _, _⟩ := conversation_pair_invariant stateW7 hcanon
  obtain ⟨_, _, hdup⟩ := hcreate 7 3 "Hello!"
  have hok : (create_conversation stateW7 7 3 "Hello!").2 = .ok ⟨100, 3, 7⟩ := rfl
  obtain ⟨hd1, hd2⟩ := hdup ⟨100, 3, 7⟩ "Hi again" hok
  exact ⟨⟨⟨100, 3, 7⟩, hok, rfl, rfl⟩, hd2, hd1⟩

end CoLab
